import Mathlib

/-!
Shallow embedding of the deliberation-and-consensus core of the repository
(`src/reasoning_layer/consensus_builder.py`, `src/reasoning_layer/debate_manager.py`,
`src/decision_layer/signal_generator.py`).

Python floats are modelled as exact rationals (`ℚ`), recommendation labels as
`String` (the Python code stores them as raw strings), dictionaries with a
fixed key set as structures, and `KeyError` as an `Except` error value.
-/

/-- The fixed key set of the per-class score dictionaries:
`{'BUY': 0.0, 'SELL': 0.0, 'SHORT': 0.0, 'HOLD': 0.0}`. -/
def the4 : List String := ["BUY", "SELL", "SHORT", "HOLD"]

/-- The single error the modelled code can raise: a Python `KeyError`
from indexing a fixed-key score dictionary with an unknown label. -/
inductive PyErr where
  | keyError
deriving DecidableEq

/-- `AgentResponse` (src/agent_layer/base_agent.py), restricted to the fields the
consensus and debate layers read: `agent_name`, `recommendation`, `confidence`. -/
structure AgentResponse where
  agent_name : String
  recommendation : String
  confidence : ℚ
deriving DecidableEq

/-- A dictionary `{'BUY': _, 'SELL': _, 'SHORT': _, 'HOLD': _}` of per-class scores. -/
structure Scores where
  buy : ℚ
  sell : ℚ
  short : ℚ
  hold : ℚ
deriving DecidableEq

/-- The all-zero score dictionary. -/
def Scores.zero : Scores := ⟨0, 0, 0, 0⟩

/-- `scores[rec] += v`: raises `KeyError` when `rec` is not one of the four keys. -/
def Scores.addAt (s : Scores) (rec : String) (v : ℚ) : Except PyErr Scores :=
  if rec = "BUY" then .ok { s with buy := s.buy + v }
  else if rec = "SELL" then .ok { s with sell := s.sell + v }
  else if rec = "SHORT" then .ok { s with short := s.short + v }
  else if rec = "HOLD" then .ok { s with hold := s.hold + v }
  else .error .keyError

/-- Componentwise `scores[key] /= d`. -/
def Scores.divAll (s : Scores) (d : ℚ) : Scores :=
  ⟨s.buy / d, s.sell / d, s.short / d, s.hold / d⟩

/-- Sum of the four score values. -/
def Scores.total (s : Scores) : ℚ := s.buy + s.sell + s.short + s.hold

/-- Value of the score dictionary at one of the four keys (`0` elsewhere);
used on the specification side to state facts uniformly over the key set. -/
def Scores.at (s : Scores) (rec : String) : ℚ :=
  if rec = "BUY" then s.buy
  else if rec = "SELL" then s.sell
  else if rec = "SHORT" then s.short
  else if rec = "HOLD" then s.hold
  else 0

/-- Python `max(items, key=lambda x: x[1])` on the non-empty list `init :: l`:
keeps the first item whose value is maximal (a later item replaces the current
best only when its value is strictly greater). -/
def pymax {α : Type} [LinearOrder α] (init : String × α) : List (String × α) → String × α
  | [] => init
  | x :: xs => pymax (if init.2 < x.2 then x else init) xs

/-- `max(weighted_scores.items(), key=lambda x: x[1])[0]`: the items iterate in
the dictionary's fixed insertion order `BUY, SELL, SHORT, HOLD`. -/
def argmaxScores (s : Scores) : String :=
  (pymax ("BUY", s.buy) [("SELL", s.sell), ("SHORT", s.short), ("HOLD", s.hold)]).1

/-- Python `Counter(recs).most_common(1)[0]`: the first-encountered label of
maximal multiplicity, paired with that multiplicity.  (`Counter` keys are in
first-occurrence order and `most_common`'s sort is stable, so ties go to the
first-encountered label; folding over the raw list with a strictly-greater
test is equivalent, since duplicates of a label carry equal counts and never
displace its first occurrence.) -/
def most_common1 : List String → String × Nat
  | [] => ("", 0)
  | r :: rs => pymax (r, (r :: rs).count r) (rs.map fun k => (k, (r :: rs).count k))

/-- Python `d.get(k, dflt)` on a string-keyed dictionary rendered as an
association list. -/
def dictGet (d : List (String × ℚ)) (k : String) (dflt : ℚ) : ℚ :=
  match d with
  | [] => dflt
  | (k', v) :: rest => if k' = k then v else dictGet rest k dflt

/-- The consensus dictionaries returned by `ConsensusBuilder`; keys that a
given method does not emit (or that are absent on the empty-input path) are
modelled as `none`. -/
structure PyConsensus where
  recommendation : String
  confidence : ℚ
  consensus_level : ℚ
  method : String
  weighted_scores : Option Scores := none
  scores : Option Scores := none
  breakdown : Option (Nat × Nat × Nat × Nat) := none
  total_agents : Option Nat := none
  winning_votes : Option Nat := none
deriving DecidableEq

/-- The dictionary each method returns when `responses` is empty. -/
def emptyDefault (method : String) : PyConsensus :=
  { recommendation := "HOLD", confidence := 0, consensus_level := 0, method := method }

/-- Loop state of `calculate_weighted_recommendation`'s accumulation loop:
`total_weight`, `weighted_scores`, `weighted_confidence`. -/
structure WStep where
  total_weight : ℚ
  weighted_scores : Scores
  weighted_confidence : ℚ
deriving DecidableEq

/-- The `for response in responses` loop of `calculate_weighted_recommendation`
(consensus_builder.py lines 59-66): `weight = agent_weights.get(name, 1/len)`,
`total_weight += weight`, `weighted_scores[rec] += weight * confidence`
(a `KeyError` here aborts the call), `weighted_confidence += weight * confidence`.
`n` is `len(responses)` of the full list. -/
def weightedLoop (agent_weights : List (String × ℚ)) (n : Nat) :
    List AgentResponse → WStep → Except PyErr WStep
  | [], st => .ok st
  | r :: rs, st =>
    let w := dictGet agent_weights r.agent_name (1 / (n : ℚ))
    match st.weighted_scores.addAt r.recommendation (w * r.confidence) with
    | .error e => .error e
    | .ok s =>
      weightedLoop agent_weights n rs
        ⟨st.total_weight + w, s, st.weighted_confidence + w * r.confidence⟩

/-- `ConsensusBuilder.calculate_weighted_recommendation` (consensus_builder.py
lines 32-96). -/
def calculate_weighted_recommendation (agent_weights : List (String × ℚ))
    (responses : List AgentResponse) : Except PyErr PyConsensus :=
  if responses.isEmpty then .ok (emptyDefault "default")
  else
    match weightedLoop agent_weights responses.length responses ⟨0, Scores.zero, 0⟩ with
    | .error e => .error e
    | .ok st =>
      let norm :=
        if 0 < st.total_weight then
          (st.weighted_scores.divAll st.total_weight, st.weighted_confidence / st.total_weight)
        else (st.weighted_scores, st.weighted_confidence)
      let recs := responses.map AgentResponse.recommendation
      .ok { recommendation := argmaxScores norm.1,
            confidence := norm.2,
            weighted_scores := some norm.1,
            consensus_level := ((most_common1 recs).2 : ℚ) / (responses.length : ℚ),
            method := "weighted",
            total_agents := some responses.length,
            breakdown :=
              some (recs.count "BUY", recs.count "SELL", recs.count "SHORT", recs.count "HOLD") }

/-- `ConsensusBuilder.calculate_majority_vote` (consensus_builder.py lines 98-141). -/
def calculate_majority_vote (responses : List AgentResponse) : Except PyErr PyConsensus :=
  if responses.isEmpty then .ok (emptyDefault "majority_vote")
  else
    let recs := responses.map AgentResponse.recommendation
    let mc := most_common1 recs
    let winning := responses.filter fun r => r.recommendation = mc.1
    .ok { recommendation := mc.1,
          confidence := (winning.map AgentResponse.confidence).sum / (winning.length : ℚ),
          consensus_level := (mc.2 : ℚ) / (responses.length : ℚ),
          method := "majority_vote",
          total_agents := some responses.length,
          winning_votes := some mc.2 }

/-- The `scores[rec] += inc(response)` accumulation loops of
`calculate_confidence_weighted` (consensus_builder.py lines 169-176): both the
zero-total fallback loop (`inc = 1/len`) and the normal loop
(`inc = confidence/total_confidence`) have this shape. -/
def confLoop (inc : AgentResponse → ℚ) : List AgentResponse → Scores → Except PyErr Scores
  | [], s => .ok s
  | r :: rs, s =>
    match s.addAt r.recommendation (inc r) with
    | .error e => .error e
    | .ok s' => confLoop inc rs s'

/-- `ConsensusBuilder.calculate_confidence_weighted` (consensus_builder.py
lines 143-195). -/
def calculate_confidence_weighted (responses : List AgentResponse) :
    Except PyErr PyConsensus :=
  if responses.isEmpty then .ok (emptyDefault "confidence_weighted")
  else
    let total_confidence := (responses.map AgentResponse.confidence).sum
    let loop :=
      if total_confidence = 0 then
        confLoop (fun _ => 1 / (responses.length : ℚ)) responses Scores.zero
      else
        confLoop (fun r => r.confidence / total_confidence) responses Scores.zero
    match loop with
    | .error e => .error e
    | .ok scores =>
      let recs := responses.map AgentResponse.recommendation
      .ok { recommendation := argmaxScores scores,
            confidence := total_confidence / (responses.length : ℚ),
            scores := some scores,
            consensus_level := ((most_common1 recs).2 : ℚ) / (responses.length : ℚ),
            method := "confidence_weighted",
            total_agents := some responses.length }

/-- `ConsensusBuilder.build_consensus` (consensus_builder.py lines 197-226):
dispatch on the method name; an unknown name falls back to the weighted method. -/
def build_consensus (agent_weights : List (String × ℚ)) (responses : List AgentResponse)
    (method : String) : Except PyErr PyConsensus :=
  if method = "weighted" then calculate_weighted_recommendation agent_weights responses
  else if method = "majority" then calculate_majority_vote responses
  else if method = "confidence" then calculate_confidence_weighted responses
  else calculate_weighted_recommendation agent_weights responses

/-- `SignalGenerator.determine_signal_strength` (signal_generator.py lines
66-106).  `high_threshold` is `confidence_thresholds['high']`; the consensus
cut-off `0.75` is hard-coded.  Any recommendation other than BUY/SELL/SHORT
falls into the `else` branch and yields `HOLD`. -/
def determine_signal_strength (high_threshold : ℚ) (recommendation : String)
    (confidence consensus_level : ℚ) : String :=
  if recommendation = "BUY" then
    if high_threshold ≤ confidence ∧ 3/4 ≤ consensus_level then "STRONG_BUY" else "BUY"
  else if recommendation = "SELL" then
    if high_threshold ≤ confidence ∧ 3/4 ≤ consensus_level then "STRONG_SELL" else "SELL"
  else if recommendation = "SHORT" then
    if high_threshold ≤ confidence ∧ 3/4 ≤ consensus_level then "STRONG_SHORT" else "SHORT"
  else "HOLD"

/-- The default `confidence_thresholds['high']` (signal_generator.py line 59). -/
def default_high_threshold : ℚ := 8/10

/-- `SignalGenerator.estimate_price_targets` (signal_generator.py lines
200-254), after the consensus dictionary lookups: `recommendation` and
`confidence` are the values read from the report.  Python's
`if not current_price` treats both `None` and a price of `0` as absent. -/
def estimate_price_targets (recommendation : String) (confidence : ℚ)
    (current_price : Option ℚ) : Option ℚ × Option ℚ :=
  match current_price with
  | none => (none, none)
  | some p =>
    if p = 0 then (none, none)
    else if recommendation = "BUY" then
      (some (p * (1 + (5/100 + confidence * (10/100)))), some (p * (95/100)))
    else if recommendation = "SELL" then
      (some (p * (1 - (5/100 + confidence * (10/100)))), some (p * (105/100)))
    else if recommendation = "SHORT" then
      (some (p * (1 - (10/100 + confidence * (15/100)))),
       some (p * (1 + (5/100 + (3/100) * (1 - confidence)))))
    else
      (some p, some (p * (90/100)))

/-- Python `max(xs)` on a non-empty list of rationals. -/
def pyListMax : List ℚ → ℚ
  | [] => 0
  | x :: xs => xs.foldl max x

/-- Python `min(xs)` on a non-empty list of rationals. -/
def pyListMin : List ℚ → ℚ
  | [] => 0
  | x :: xs => xs.foldl min x

/-- The two disagreement categories of `DebateManager.identify_disagreements`. -/
inductive DisagreementType where
  | recommendation_conflict
  | confidence_divergence
deriving DecidableEq

/-- One disagreement descriptor (debate_manager.py lines 149-168): its type and
the agent-name lists it enumerates. -/
structure Disagreement where
  dtype : DisagreementType
  group_a : List String
  group_b : List String
  group_c : List String
deriving DecidableEq

/-- `DebateManager.identify_disagreements` (debate_manager.py lines 121-170):
a `recommendation_conflict` when BUY-agents coexist with SELL- or SHORT-agents,
and a `confidence_divergence` when `max(confidences) - min(confidences) > 0.4`. -/
def identify_disagreements (responses : List AgentResponse) : List Disagreement :=
  let buy_agents := responses.filter fun r => r.recommendation = "BUY"
  let sell_agents := responses.filter fun r => r.recommendation = "SELL"
  let short_agents := responses.filter fun r => r.recommendation = "SHORT"
  let conflict :=
    if 0 < buy_agents.length ∧ (0 < sell_agents.length ∨ 0 < short_agents.length) then
      [⟨.recommendation_conflict, buy_agents.map AgentResponse.agent_name,
        sell_agents.map AgentResponse.agent_name, short_agents.map AgentResponse.agent_name⟩]
    else []
  let divergence :=
    if responses.isEmpty then []
    else
      let confidences := responses.map AgentResponse.confidence
      if 2/5 < pyListMax confidences - pyListMin confidences then
        [⟨.confidence_divergence,
          (responses.filter fun r => 7/10 < r.confidence).map AgentResponse.agent_name,
          (responses.filter fun r => r.confidence < 2/5).map AgentResponse.agent_name, []⟩]
      else []
  conflict ++ divergence

/-- `DebateManager.calculate_consensus` (debate_manager.py lines 76-94): the
multiplicity of the modal recommendation over the number of responses.  (The
Python code picks the mode by `max(set(...), key=count)`; only its count is
used, which is the maximal multiplicity however the set iterates.) -/
def calculate_consensus (responses : List AgentResponse) : ℚ :=
  if responses.isEmpty then 0
  else ((most_common1 (responses.map AgentResponse.recommendation)).2 : ℚ)
        / (responses.length : ℚ)

/-- The dictionary an agent's debate reply parses to, restricted to the keys
`conduct_debate_round` reads: `parsed.get('recommendation', ...)` and
`parsed.get('confidence', ...)`; `none` models an absent key. -/
structure ParsedReply where
  rec? : Option String
  conf? : Option ℚ

/-- Behaviour of the analyst pool during debate rounds: for round `r` and agent
index `i`, `none` means the agent raised inside the `try` block (its
`call_llm`/parsing failed), `some reply` is the parsed reply. -/
def DebateOracle : Type := Nat → Nat → Option ParsedReply

/-- The Python heap fragment holding the `AgentResponse` objects: an object
store indexed by reference.  Lets the embedding express that
`conduct_debate_round` mutates the very objects recorded in earlier rounds. -/
def Store : Type := List AgentResponse

/-- Dereference an object. -/
def readRef (σ : Store) (ref : Nat) : AgentResponse := σ.getD ref ⟨"", "", 0⟩

/-- Overwrite an object in place. -/
def writeRef (σ : Store) (ref : Nat) (v : AgentResponse) : Store := σ.set ref v

/-- One entry of `debate_round.debates` (debate_manager.py lines 309-323),
restricted to the position data. -/
structure DebateEntry where
  agent_idx : Nat
  previous_recommendation : String
  previous_confidence : ℚ
  new_recommendation : String
  new_confidence : ℚ
  changed : Bool
deriving DecidableEq

/-- A `DebateRound` as held by the manager: positions are references to the
shared `AgentResponse` objects, not copies. -/
structure RoundRec where
  round_number : Nat
  agent_responses : List Nat
  debates : List DebateEntry
  consensus_level : ℚ

/-- `DebateManager.conduct_debate_round` (debate_manager.py lines 250-332).
If the previous round's positions show no disagreement the round object is
returned empty.  Otherwise each agent is queried in order; on success the
*previous round's response object is mutated in place*
(`updated_response = previous_responses[i]` aliases, then assigns its fields)
and that same reference is appended to the new round; on failure the
unchanged reference is appended. -/
def conduct_debate_round (oracle : DebateOracle) (σ : Store) (prev : List Nat)
    (round_number : Nat) : Store × RoundRec :=
  if identify_disagreements (prev.map (readRef σ)) = [] then
    (σ, ⟨round_number, [], [], 0⟩)
  else
    (List.range prev.length).foldl
      (fun acc i =>
        let ref := prev.getD i 0
        match oracle round_number i with
        | none =>
          (acc.1, { acc.2 with agent_responses := acc.2.agent_responses ++ [ref] })
        | some parsed =>
          let prevPos := readRef acc.1 ref
          let newRec := parsed.rec?.getD prevPos.recommendation
          let newConf := parsed.conf?.getD prevPos.confidence
          (writeRef acc.1 ref { prevPos with recommendation := newRec, confidence := newConf },
           { acc.2 with
             agent_responses := acc.2.agent_responses ++ [ref],
             debates := acc.2.debates ++
               [⟨i, prevPos.recommendation, prevPos.confidence, newRec, newConf,
                 decide (prevPos.recommendation ≠ newRec)⟩] }))
      (σ, ⟨round_number, [], [], 0⟩)

/-- The mutable state of `run_full_debate`'s round loop: the object store, the
`current_responses` references, and `all_rounds`. -/
structure SessionState where
  store : Store
  current : List Nat
  all_rounds : List RoundRec

/-- The `for round_num in range(1, max_rounds + 1)` loop of `run_full_debate`
(debate_manager.py lines 368-384), with the remaining iteration count as fuel:
run a debate round; if it produced responses they become current and the
round's consensus level is computed; the round is appended unconditionally;
then the loop breaks early when the current positions show no disagreement. -/
def debateLoop (oracle : DebateOracle) : Nat → Nat → SessionState → SessionState
  | 0, _, st => st
  | fuel + 1, round_num, st =>
    let step := conduct_debate_round oracle st.store st.current round_num
    let upd :=
      if step.2.agent_responses.isEmpty then (st.current, step.2)
      else (step.2.agent_responses,
            { step.2 with consensus_level :=
                calculate_consensus (step.2.agent_responses.map (readRef step.1)) })
    let st' : SessionState := ⟨step.1, upd.1, st.all_rounds ++ [upd.2]⟩
    if identify_disagreements (upd.1.map (readRef step.1)) = [] then st'
    else debateLoop oracle fuel (round_num + 1) st'

/-- A round as it appears in the result dictionary (`DebateRound.to_dict`,
debate_manager.py lines 33-51): the positions are dereferenced *when the
result is compiled*, i.e. through the final object store. -/
structure RoundSnapshot where
  round_number : Nat
  consensus_level : ℚ
  agent_responses : List AgentResponse
  debates : List DebateEntry
deriving DecidableEq

/-- The result dictionary of `run_full_debate` (debate_manager.py lines
386-405), restricted to the round/position data the claims are about. -/
structure DebateResult where
  total_rounds : Nat
  rounds : List RoundSnapshot
  final_responses : List AgentResponse
deriving DecidableEq

/-- `DebateManager.run_full_debate` (debate_manager.py lines 334-412).
`initial_responses` is what `conduct_initial_analysis` collected; an empty
collection is the error path (`none`).  Round 0 records references to the
initial response objects; the debate loop then runs with round budget
`max_rounds`; the result snapshots every round through the final store. -/
def run_full_debate (oracle : DebateOracle) (initial_responses : List AgentResponse)
    (max_rounds : Nat) : Option DebateResult :=
  if initial_responses.isEmpty then none
  else
    let refs := List.range initial_responses.length
    let st := debateLoop oracle max_rounds 1 ⟨initial_responses, refs, [⟨0, refs, [], 0⟩]⟩
    some { total_rounds := st.all_rounds.length,
           rounds := st.all_rounds.map fun rd =>
             ⟨rd.round_number, rd.consensus_level,
              rd.agent_responses.map (readRef st.store), rd.debates⟩,
           final_responses := st.current.map (readRef st.store) }

/-- Invariant carried through `calculate_weighted_recommendation`'s loop when
all confidences and configured weights are non-negative: the four scores are
non-negative, their sum equals the accumulated weighted confidence, and the
accumulated total weight is non-negative. -/
def WInv (st : WStep) : Prop :=
  0 ≤ st.weighted_scores.buy ∧ 0 ≤ st.weighted_scores.sell ∧
  0 ≤ st.weighted_scores.short ∧ 0 ≤ st.weighted_scores.hold ∧
  st.weighted_scores.total = st.weighted_confidence ∧ 0 ≤ st.total_weight

/-- The four-analyst scenario of spec §8: votes BUY, BUY, BUY, SELL with
confidences 0.9, 0.8, 0.7, 0.6. -/
def scenario_majority : List AgentResponse :=
  [⟨"a1", "BUY", 9/10⟩, ⟨"a2", "BUY", 8/10⟩, ⟨"a3", "BUY", 7/10⟩, ⟨"a4", "SELL", 6/10⟩]

/-- Initial positions for the aliasing run: two analysts in a BUY/SELL
recommendation conflict. -/
def aliasInitial : List AgentResponse :=
  [⟨"agent_a", "BUY", 9/10⟩, ⟨"agent_b", "SELL", 9/10⟩]

/-- Debate behaviour for the aliasing run: every analyst replies `HOLD` with
confidence 0.5 in every round. -/
def aliasOracle : DebateOracle := fun _ _ => some ⟨some "HOLD", some (1/2)⟩

theorem pymax_mem {α : Type} [LinearOrder α] (init : String × α) (l : List (String × α)) :
    pymax init l ∈ init :: l := by
  induction l generalizing init with
  | nil => simp [pymax]
  | cons x xs ih =>
    simp only [pymax]
    by_cases h : init.2 < x.2
    · rw [if_pos h]
      have hm := ih x
      simp only [List.mem_cons] at hm ⊢
      tauto
    · rw [if_neg h]
      have hm := ih init
      simp only [List.mem_cons] at hm ⊢
      tauto

theorem pymax_le {α : Type} [LinearOrder α] (init : String × α) (l : List (String × α)) :
    ∀ q ∈ init :: l, q.2 ≤ (pymax init l).2 := by
  induction l generalizing init with
  | nil =>
    intro q hq
    rcases List.mem_cons.1 hq with rfl | hq
    · simp [pymax]
    · simp at hq
  | cons x xs ih =>
    intro q hq
    simp only [pymax]
    by_cases h : init.2 < x.2
    · rw [if_pos h]
      rcases List.mem_cons.1 hq with rfl | hq'
      · exact le_trans h.le (ih x x (by simp))
      · exact ih x q hq'
    · rw [if_neg h]
      rcases List.mem_cons.1 hq with rfl | hq'
      · exact ih q q (by simp)
      · rcases List.mem_cons.1 hq' with rfl | hq''
        · exact le_trans (not_lt.1 h) (ih init init (by simp))
        · exact ih init q (by simp [hq''])

theorem pymax_self {α : Type} [LinearOrder α] (init : String × α) (l : List (String × α))
    (h : (pymax init l).2 ≤ init.2) : pymax init l = init := by
  induction l generalizing init with
  | nil => simp [pymax]
  | cons x xs ih =>
    simp only [pymax] at h ⊢
    by_cases hx : init.2 < x.2
    · exfalso
      rw [if_pos hx] at h
      have hle := pymax_le x xs x (by simp)
      exact absurd (lt_of_lt_of_le hx (le_trans hle h)) (lt_irrefl _)
    · rw [if_neg hx] at h ⊢
      exact ih init h

theorem pymax_find {α : Type} [LinearOrder α] (init : String × α) (l : List (String × α)) :
    (init :: l).find? (fun q => decide ((pymax init l).2 ≤ q.2)) = some (pymax init l) := by
  induction l generalizing init with
  | nil => simp [pymax, List.find?]
  | cons x xs ih =>
    simp only [pymax]
    by_cases hle : (pymax (if init.2 < x.2 then x else init) xs).2 ≤ init.2
    · have hni : ¬ init.2 < x.2 := by
        intro hx
        rw [if_pos hx] at hle
        have hge := pymax_le x xs x (by simp)
        exact absurd (lt_of_lt_of_le hx (le_trans hge hle)) (lt_irrefl _)
      rw [if_neg hni] at hle
      simp only [if_neg hni]
      rw [pymax_self init xs hle]
      rw [List.find?_cons_of_pos]
      simp
    · push_neg at hle
      by_cases hx : init.2 < x.2
      · rw [if_pos hx] at hle
        simp only [if_pos hx]
        rw [List.find?_cons_of_neg]
        · exact ih x
        · simp [not_le.2 hle]
      · rw [if_neg hx] at hle
        simp only [if_neg hx]
        have ihh := ih init
        rw [List.find?_cons_of_neg] at ihh
        · rw [List.find?_cons_of_neg, List.find?_cons_of_neg]
          · exact ihh
          · have hxlt : x.2 < (pymax init xs).2 := lt_of_le_of_lt (not_lt.1 hx) hle
            simp [not_le.2 hxlt]
          · simp [not_le.2 hle]
        · simp [not_le.2 hle]

theorem pymax_map_strict {α : Type} [LinearOrder α] (f : String → α) (m init : String)
    (l : List String) (hm : m ∈ init :: l)
    (h : ∀ k ∈ init :: l, k ≠ m → f k < f m) :
    (pymax (init, f init) (l.map fun k => (k, f k))).1 = m := by
  induction l generalizing init with
  | nil =>
    rcases List.mem_cons.1 hm with rfl | hm'
    · simp [pymax]
    · simp at hm'
  | cons x xs ih =>
    simp only [List.map_cons, pymax]
    by_cases hx : (init, f init).2 < (x, f x).2
    · simp only [if_pos hx]
      apply ih x
      · rcases List.mem_cons.1 hm with rfl | hm'
        · by_cases hxm : x = m
          · simp [hxm]
          · exact absurd (h x (by simp) hxm) (not_lt.2 hx.le)
        · exact hm'
      · intro k hk hkm
        rcases List.mem_cons.1 hk with rfl | hk'
        · exact h k (by simp) hkm
        · exact h k (by simp [hk']) hkm
    · simp only [if_neg hx]
      apply ih init
      · rcases List.mem_cons.1 hm with rfl | hm'
        · simp
        · rcases List.mem_cons.1 hm' with rfl | hm''
          · by_cases him : init = m
            · simp [him]
            · exact absurd (h init (by simp) him) (fun hlt => hx hlt)
          · simp [hm'']
      · intro k hk hkm
        rcases List.mem_cons.1 hk with rfl | hk'
        · exact h k (by simp) hkm
        · exact h k (by simp [hk']) hkm

theorem argmaxScores_eq (s : Scores) (m : String) (hm : m ∈ the4)
    (h : ∀ k ∈ the4, k ≠ m → s.at k < s.at m) : argmaxScores s = m := by
  have hconv : argmaxScores s
      = (pymax ("BUY", s.at "BUY") (["SELL", "SHORT", "HOLD"].map fun k => (k, s.at k))).1 := by
    simp [argmaxScores, Scores.at]
  rw [hconv]
  exact pymax_map_strict s.at m "BUY" ["SELL", "SHORT", "HOLD"]
    (by simpa [the4] using hm) (by simpa [the4] using h)

theorem argmaxScores_strict (s : Scores) (recs : List String) (w : ℚ) (m : String)
    (hbuy : s.buy = w * recs.count "BUY") (hsell : s.sell = w * recs.count "SELL")
    (hshort : s.short = w * recs.count "SHORT") (hhold : s.hold = w * recs.count "HOLD")
    (hw : 0 < w) (hm : m ∈ the4)
    (hstrict : ∀ k ∈ the4, k ≠ m → recs.count k < recs.count m) :
    argmaxScores s = m := by
  have hat : ∀ j ∈ the4, s.at j = w * recs.count j := by
    intro j hj
    rcases (by simpa [the4] using hj : j = "BUY" ∨ j = "SELL" ∨ j = "SHORT" ∨ j = "HOLD")
      with rfl | rfl | rfl | rfl
    · simpa [Scores.at] using hbuy
    · simpa [Scores.at] using hsell
    · simpa [Scores.at] using hshort
    · simpa [Scores.at] using hhold
  apply argmaxScores_eq s m hm
  intro k hk hkm
  rw [hat k hk, hat m hm]
  exact mul_lt_mul_of_pos_left (Nat.cast_lt.mpr (hstrict k hk hkm)) hw

theorem most_common1_strict (recs : List String) (m : String) (hm : m ∈ recs)
    (h : ∀ k, k ≠ m → recs.count k < recs.count m) : (most_common1 recs).1 = m := by
  cases recs with
  | nil => simp at hm
  | cons r rs =>
    simp only [most_common1]
    exact pymax_map_strict (fun k => (r :: rs).count k) m r rs hm fun k _ hkm => h k hkm

theorem most_common1_cons_map (r : String) (rs : List String) :
    (r, (r :: rs).count r) :: (rs.map fun k => (k, (r :: rs).count k))
      = (r :: rs).map fun k => (k, (r :: rs).count k) := by
  simp

theorem most_common1_key_count (recs : List String) (hne : recs ≠ []) :
    (most_common1 recs).1 ∈ recs ∧
    (most_common1 recs).2 = recs.count (most_common1 recs).1 := by
  cases recs with
  | nil => exact absurd rfl hne
  | cons r rs =>
    simp only [most_common1]
    have hmem := pymax_mem (r, (r :: rs).count r) (rs.map fun k => (k, (r :: rs).count k))
    rw [most_common1_cons_map] at hmem
    rcases List.mem_map.1 hmem with ⟨k, hk, hkeq⟩
    constructor
    · rw [← hkeq]
      exact hk
    · rw [← hkeq]

theorem most_common1_le (recs : List String) (hne : recs ≠ []) :
    ∀ x ∈ recs, recs.count x ≤ (most_common1 recs).2 := by
  cases recs with
  | nil => exact absurd rfl hne
  | cons r rs =>
    intro x hx
    simp only [most_common1]
    apply pymax_le (r, (r :: rs).count r) (rs.map fun k => (k, (r :: rs).count k))
      (x, (r :: rs).count x)
    rw [most_common1_cons_map]
    exact List.mem_map_of_mem _ hx

theorem most_common1_first (recs : List String) (hne : recs ≠ []) :
    recs.find? (fun x => decide ((most_common1 recs).2 ≤ recs.count x))
      = some (most_common1 recs).1 := by
  cases recs with
  | nil => exact absurd rfl hne
  | cons r rs =>
    simp only [most_common1]
    have hfind := pymax_find (r, (r :: rs).count r) (rs.map fun k => (k, (r :: rs).count k))
    rw [most_common1_cons_map, List.find?_map] at hfind
    rcases Option.map_eq_some'.1 hfind with ⟨k, hk, hkeq⟩
    have hk' : (r :: rs).find?
        (fun x => decide ((pymax (r, (r :: rs).count r)
          (rs.map fun k => (k, (r :: rs).count k))).2 ≤ (r :: rs).count x)) = some k := by
      simpa [Function.comp] using hk
    rw [hk', ← hkeq]

theorem addAt_ok (s : Scores) (rec : String) (v : ℚ) (h : rec ∈ the4) :
    ∃ s', s.addAt rec v = .ok s' := by
  rcases (by simpa [the4] using h : rec = "BUY" ∨ rec = "SELL" ∨ rec = "SHORT" ∨ rec = "HOLD")
    with rfl | rfl | rfl | rfl <;> simp [Scores.addAt]

theorem addAt_err (s : Scores) (rec : String) (v : ℚ) (h : rec ∉ the4) :
    s.addAt rec v = .error .keyError := by
  have h' : ¬ rec = "BUY" ∧ ¬ rec = "SELL" ∧ ¬ rec = "SHORT" ∧ ¬ rec = "HOLD" := by
    simpa [the4] using h
  simp [Scores.addAt, h'.1, h'.2.1, h'.2.2.1, h'.2.2.2]

theorem addAt_total (s s' : Scores) (rec : String) (v : ℚ) (h : s.addAt rec v = .ok s') :
    s'.total = s.total + v := by
  simp only [Scores.addAt] at h
  split_ifs at h <;> simp only [Except.ok.injEq] at h <;> subst h <;>
    simp [Scores.total] <;> ring

theorem addAt_nonneg (s s' : Scores) (rec : String) (v : ℚ) (h : s.addAt rec v = .ok s')
    (hs : 0 ≤ s.buy ∧ 0 ≤ s.sell ∧ 0 ≤ s.short ∧ 0 ≤ s.hold) (hv : 0 ≤ v) :
    0 ≤ s'.buy ∧ 0 ≤ s'.sell ∧ 0 ≤ s'.short ∧ 0 ≤ s'.hold := by
  obtain ⟨h1, h2, h3, h4⟩ := hs
  simp only [Scores.addAt] at h
  split_ifs at h <;> simp only [Except.ok.injEq] at h <;> subst h <;>
    refine ⟨by simp <;> positivity, by simp <;> positivity, by simp <;> positivity,
      by simp <;> positivity⟩

theorem dictGet_nonneg (d : List (String × ℚ)) (k : String) (dflt : ℚ)
    (hd : ∀ p ∈ d, 0 ≤ p.2) (h0 : 0 ≤ dflt) : 0 ≤ dictGet d k dflt := by
  induction d with
  | nil => simpa [dictGet]
  | cons p rest ih =>
    rcases p with ⟨k', v⟩
    simp only [dictGet]
    split
    · exact hd ⟨k', v⟩ (by simp)
    · exact ih fun q hq => hd q (by simp [hq])

theorem weightedLoop_cons (aw : List (String × ℚ)) (n : Nat) (r : AgentResponse)
    (rs : List AgentResponse) (st : WStep) :
    weightedLoop aw n (r :: rs) st =
      match st.weighted_scores.addAt r.recommendation
          (dictGet aw r.agent_name (1 / (n : ℚ)) * r.confidence) with
      | .error e => .error e
      | .ok s => weightedLoop aw n rs
          ⟨st.total_weight + dictGet aw r.agent_name (1 / (n : ℚ)), s,
           st.weighted_confidence + dictGet aw r.agent_name (1 / (n : ℚ)) * r.confidence⟩ := rfl

theorem weightedLoop_cons_ok (aw : List (String × ℚ)) (n : Nat) (r : AgentResponse)
    (rs : List AgentResponse) (st : WStep) (s : Scores)
    (hadd : st.weighted_scores.addAt r.recommendation
      (dictGet aw r.agent_name (1 / (n : ℚ)) * r.confidence) = .ok s) :
    weightedLoop aw n (r :: rs) st = weightedLoop aw n rs
      ⟨st.total_weight + dictGet aw r.agent_name (1 / (n : ℚ)), s,
       st.weighted_confidence + dictGet aw r.agent_name (1 / (n : ℚ)) * r.confidence⟩ := by
  rw [weightedLoop_cons, hadd]

theorem weightedLoop_cons_err (aw : List (String × ℚ)) (n : Nat) (r : AgentResponse)
    (rs : List AgentResponse) (st : WStep) (e : PyErr)
    (hadd : st.weighted_scores.addAt r.recommendation
      (dictGet aw r.agent_name (1 / (n : ℚ)) * r.confidence) = .error e) :
    weightedLoop aw n (r :: rs) st = .error e := by
  rw [weightedLoop_cons, hadd]

theorem confLoop_cons (inc : AgentResponse → ℚ) (r : AgentResponse)
    (rs : List AgentResponse) (s : Scores) :
    confLoop inc (r :: rs) s =
      match s.addAt r.recommendation (inc r) with
      | .error e => .error e
      | .ok s' => confLoop inc rs s' := rfl

theorem confLoop_cons_ok (inc : AgentResponse → ℚ) (r : AgentResponse)
    (rs : List AgentResponse) (s s' : Scores)
    (hadd : s.addAt r.recommendation (inc r) = .ok s') :
    confLoop inc (r :: rs) s = confLoop inc rs s' := by
  rw [confLoop_cons, hadd]

theorem confLoop_cons_err (inc : AgentResponse → ℚ) (r : AgentResponse)
    (rs : List AgentResponse) (s : Scores) (e : PyErr)
    (hadd : s.addAt r.recommendation (inc r) = .error e) :
    confLoop inc (r :: rs) s = .error e := by
  rw [confLoop_cons, hadd]

theorem weightedLoop_ok (aw : List (String × ℚ)) (n : Nat) (rs : List AgentResponse)
    (st : WStep) (hv : ∀ r ∈ rs, r.recommendation ∈ the4) :
    ∃ st', weightedLoop aw n rs st = .ok st' := by
  induction rs generalizing st with
  | nil => exact ⟨st, rfl⟩
  | cons r rs ih =>
    obtain ⟨s, hs⟩ := addAt_ok st.weighted_scores r.recommendation
      (dictGet aw r.agent_name (1 / (n : ℚ)) * r.confidence) (hv r (by simp))
    rw [weightedLoop_cons_ok aw n r rs st s hs]
    exact ih _ fun x hx => hv x (by simp [hx])

theorem weightedLoop_err (aw : List (String × ℚ)) (n : Nat) (rs : List AgentResponse)
    (st : WStep) (h : ∃ r ∈ rs, r.recommendation ∉ the4) :
    weightedLoop aw n rs st = .error .keyError := by
  induction rs generalizing st with
  | nil => simp at h
  | cons r rs ih =>
    by_cases hr : r.recommendation ∈ the4
    · obtain ⟨s, hs⟩ := addAt_ok st.weighted_scores r.recommendation
        (dictGet aw r.agent_name (1 / (n : ℚ)) * r.confidence) hr
      rw [weightedLoop_cons_ok aw n r rs st s hs]
      apply ih
      rcases h with ⟨x, hx, hxn⟩
      rcases List.mem_cons.1 hx with rfl | hx'
      · exact absurd hr hxn
      · exact ⟨x, hx', hxn⟩
    · exact weightedLoop_cons_err aw n r rs st .keyError
        (addAt_err st.weighted_scores r.recommendation _ hr)

theorem confLoop_ok (inc : AgentResponse → ℚ) (rs : List AgentResponse) (s : Scores)
    (hv : ∀ r ∈ rs, r.recommendation ∈ the4) :
    ∃ s', confLoop inc rs s = .ok s' := by
  induction rs generalizing s with
  | nil => exact ⟨s, rfl⟩
  | cons r rs ih =>
    obtain ⟨s', hs'⟩ := addAt_ok s r.recommendation (inc r) (hv r (by simp))
    rw [confLoop_cons_ok inc r rs s s' hs']
    exact ih _ fun x hx => hv x (by simp [hx])

theorem confLoop_err (inc : AgentResponse → ℚ) (rs : List AgentResponse) (s : Scores)
    (h : ∃ r ∈ rs, r.recommendation ∉ the4) :
    confLoop inc rs s = .error .keyError := by
  induction rs generalizing s with
  | nil => simp at h
  | cons r rs ih =>
    by_cases hr : r.recommendation ∈ the4
    · obtain ⟨s', hs'⟩ := addAt_ok s r.recommendation (inc r) hr
      rw [confLoop_cons_ok inc r rs s s' hs']
      apply ih
      rcases h with ⟨x, hx, hxn⟩
      rcases List.mem_cons.1 hx with rfl | hx'
      · exact absurd hr hxn
      · exact ⟨x, hx', hxn⟩
    · exact confLoop_cons_err inc r rs s .keyError (addAt_err s r.recommendation _ hr)

theorem weightedLoop_inv (aw : List (String × ℚ)) (n : Nat) (rs : List AgentResponse) :
    ∀ st st', (∀ p ∈ aw, 0 ≤ p.2) → (∀ r ∈ rs, 0 ≤ r.confidence) →
      weightedLoop aw n rs st = .ok st' → WInv st → WInv st' := by
  induction rs with
  | nil =>
    intro st st' _ _ hrun hinv
    simp only [weightedLoop, Except.ok.injEq] at hrun
    rwa [← hrun]
  | cons r rs ih =>
    intro st st' hw hc hrun hinv
    cases hs : st.weighted_scores.addAt r.recommendation
        (dictGet aw r.agent_name (1 / (n : ℚ)) * r.confidence) with
    | error e =>
      rw [weightedLoop_cons_err aw n r rs st e hs] at hrun
      exact absurd hrun (by simp)
    | ok s =>
      rw [weightedLoop_cons_ok aw n r rs st s hs] at hrun
      apply ih _ st' hw (fun x hx => hc x (by simp [hx])) hrun
      have hwge : 0 ≤ dictGet aw r.agent_name (1 / (n : ℚ)) :=
        dictGet_nonneg aw r.agent_name _ hw (one_div_nonneg.mpr (Nat.cast_nonneg n))
      have hvge : 0 ≤ dictGet aw r.agent_name (1 / (n : ℚ)) * r.confidence :=
        mul_nonneg hwge (hc r (by simp))
      obtain ⟨h1, h2, h3, h4, h5, h6⟩ := hinv
      have htot := addAt_total _ _ _ _ hs
      have hnn := addAt_nonneg _ _ _ _ hs ⟨h1, h2, h3, h4⟩ hvge
      exact ⟨hnn.1, hnn.2.1, hnn.2.2.1, hnn.2.2.2, by rw [htot, h5], add_nonneg h6 hwge⟩

theorem weightedLoop_uniform (n : Nat) (c : ℚ) (rs : List AgentResponse) :
    ∀ st : WStep, (∀ r ∈ rs, r.recommendation ∈ the4) → (∀ r ∈ rs, r.confidence = c) →
    weightedLoop [] n rs st = .ok
      ⟨st.total_weight + rs.length * (1 / (n : ℚ)),
       ⟨st.weighted_scores.buy
          + 1 / (n : ℚ) * c * ((rs.map AgentResponse.recommendation).count "BUY"),
        st.weighted_scores.sell
          + 1 / (n : ℚ) * c * ((rs.map AgentResponse.recommendation).count "SELL"),
        st.weighted_scores.short
          + 1 / (n : ℚ) * c * ((rs.map AgentResponse.recommendation).count "SHORT"),
        st.weighted_scores.hold
          + 1 / (n : ℚ) * c * ((rs.map AgentResponse.recommendation).count "HOLD")⟩,
       st.weighted_confidence + rs.length * (1 / (n : ℚ) * c)⟩ := by
  induction rs with
  | nil =>
    intro st _ _
    simp [weightedLoop]
  | cons r rs ih =>
    intro st h4 hc
    have hcr : r.confidence = c := hc r (by simp)
    have htl4 : ∀ x ∈ rs, x.recommendation ∈ the4 := fun x hx => h4 x (by simp [hx])
    have htlc : ∀ x ∈ rs, x.confidence = c := fun x hx => hc x (by simp [hx])
    rcases (by simpa [the4] using h4 r (by simp) :
        r.recommendation = "BUY" ∨ r.recommendation = "SELL" ∨
        r.recommendation = "SHORT" ∨ r.recommendation = "HOLD") with hr | hr | hr | hr
    · have hadd : st.weighted_scores.addAt r.recommendation
          (dictGet [] r.agent_name (1 / (n : ℚ)) * r.confidence)
          = .ok { st.weighted_scores with
                  buy := st.weighted_scores.buy + 1 / (n : ℚ) * c } := by
        simp [Scores.addAt, hr, hcr, dictGet]
      rw [weightedLoop_cons_ok _ _ _ _ _ _ hadd, ih _ htl4 htlc]
      simp only [Except.ok.injEq, WStep.mk.injEq, Scores.mk.injEq, List.map_cons,
        List.count_cons, hr]
      refine ⟨by simp only [dictGet, hcr, List.length_cons]; push_cast; ring,
        ⟨?_, ?_, ?_, ?_⟩, by simp only [dictGet, hcr, List.length_cons]; push_cast; ring⟩ <;>
        simp <;> push_cast <;> ring
    · have hadd : st.weighted_scores.addAt r.recommendation
          (dictGet [] r.agent_name (1 / (n : ℚ)) * r.confidence)
          = .ok { st.weighted_scores with
                  sell := st.weighted_scores.sell + 1 / (n : ℚ) * c } := by
        simp [Scores.addAt, hr, hcr, dictGet]
      rw [weightedLoop_cons_ok _ _ _ _ _ _ hadd, ih _ htl4 htlc]
      simp only [Except.ok.injEq, WStep.mk.injEq, Scores.mk.injEq, List.map_cons,
        List.count_cons, hr]
      refine ⟨by simp only [dictGet, hcr, List.length_cons]; push_cast; ring,
        ⟨?_, ?_, ?_, ?_⟩, by simp only [dictGet, hcr, List.length_cons]; push_cast; ring⟩ <;>
        simp <;> push_cast <;> ring
    · have hadd : st.weighted_scores.addAt r.recommendation
          (dictGet [] r.agent_name (1 / (n : ℚ)) * r.confidence)
          = .ok { st.weighted_scores with
                  short := st.weighted_scores.short + 1 / (n : ℚ) * c } := by
        simp [Scores.addAt, hr, hcr, dictGet]
      rw [weightedLoop_cons_ok _ _ _ _ _ _ hadd, ih _ htl4 htlc]
      simp only [Except.ok.injEq, WStep.mk.injEq, Scores.mk.injEq, List.map_cons,
        List.count_cons, hr]
      refine ⟨by simp only [dictGet, hcr, List.length_cons]; push_cast; ring,
        ⟨?_, ?_, ?_, ?_⟩, by simp only [dictGet, hcr, List.length_cons]; push_cast; ring⟩ <;>
        simp <;> push_cast <;> ring
    · have hadd : st.weighted_scores.addAt r.recommendation
          (dictGet [] r.agent_name (1 / (n : ℚ)) * r.confidence)
          = .ok { st.weighted_scores with
                  hold := st.weighted_scores.hold + 1 / (n : ℚ) * c } := by
        simp [Scores.addAt, hr, hcr, dictGet]
      rw [weightedLoop_cons_ok _ _ _ _ _ _ hadd, ih _ htl4 htlc]
      simp only [Except.ok.injEq, WStep.mk.injEq, Scores.mk.injEq, List.map_cons,
        List.count_cons, hr]
      refine ⟨by simp only [dictGet, hcr, List.length_cons]; push_cast; ring,
        ⟨?_, ?_, ?_, ?_⟩, by simp only [dictGet, hcr, List.length_cons]; push_cast; ring⟩ <;>
        simp <;> push_cast <;> ring

theorem confLoop_const (inc : AgentResponse → ℚ) (w : ℚ) (rs : List AgentResponse) :
    ∀ s : Scores, (∀ r ∈ rs, r.recommendation ∈ the4) → (∀ r ∈ rs, inc r = w) →
    confLoop inc rs s = .ok
      ⟨s.buy + w * ((rs.map AgentResponse.recommendation).count "BUY"),
       s.sell + w * ((rs.map AgentResponse.recommendation).count "SELL"),
       s.short + w * ((rs.map AgentResponse.recommendation).count "SHORT"),
       s.hold + w * ((rs.map AgentResponse.recommendation).count "HOLD")⟩ := by
  induction rs with
  | nil =>
    intro s _ _
    simp [confLoop]
  | cons r rs ih =>
    intro s h4 hc
    have hcr : inc r = w := hc r (by simp)
    have htl4 : ∀ x ∈ rs, x.recommendation ∈ the4 := fun x hx => h4 x (by simp [hx])
    have htlc : ∀ x ∈ rs, inc x = w := fun x hx => hc x (by simp [hx])
    rcases (by simpa [the4] using h4 r (by simp) :
        r.recommendation = "BUY" ∨ r.recommendation = "SELL" ∨
        r.recommendation = "SHORT" ∨ r.recommendation = "HOLD") with hr | hr | hr | hr
    · have hadd : s.addAt r.recommendation (inc r)
          = .ok { s with buy := s.buy + w } := by
        simp [Scores.addAt, hr, hcr]
      rw [confLoop_cons_ok _ _ _ _ _ hadd, ih _ htl4 htlc]
      simp only [Except.ok.injEq, Scores.mk.injEq, List.map_cons, List.count_cons, hr]
      refine ⟨?_, ?_, ?_, ?_⟩ <;> simp <;> push_cast <;> ring
    · have hadd : s.addAt r.recommendation (inc r)
          = .ok { s with sell := s.sell + w } := by
        simp [Scores.addAt, hr, hcr]
      rw [confLoop_cons_ok _ _ _ _ _ hadd, ih _ htl4 htlc]
      simp only [Except.ok.injEq, Scores.mk.injEq, List.map_cons, List.count_cons, hr]
      refine ⟨?_, ?_, ?_, ?_⟩ <;> simp <;> push_cast <;> ring
    · have hadd : s.addAt r.recommendation (inc r)
          = .ok { s with short := s.short + w } := by
        simp [Scores.addAt, hr, hcr]
      rw [confLoop_cons_ok _ _ _ _ _ hadd, ih _ htl4 htlc]
      simp only [Except.ok.injEq, Scores.mk.injEq, List.map_cons, List.count_cons, hr]
      refine ⟨?_, ?_, ?_, ?_⟩ <;> simp <;> push_cast <;> ring
    · have hadd : s.addAt r.recommendation (inc r)
          = .ok { s with hold := s.hold + w } := by
        simp [Scores.addAt, hr, hcr]
      rw [confLoop_cons_ok _ _ _ _ _ hadd, ih _ htl4 htlc]
      simp only [Except.ok.injEq, Scores.mk.injEq, List.map_cons, List.count_cons, hr]
      refine ⟨?_, ?_, ?_, ?_⟩ <;> simp <;> push_cast <;> ring

theorem sum_conf_const (rs : List AgentResponse) (c : ℚ)
    (h : ∀ r ∈ rs, r.confidence = c) :
    (rs.map AgentResponse.confidence).sum = rs.length * c := by
  induction rs with
  | nil => simp
  | cons r rest ih =>
    simp only [List.map_cons, List.sum_cons, List.length_cons,
      h r (by simp), ih fun x hx => h x (by simp [hx])]
    push_cast
    ring

theorem isEmpty_false_of_ne {α : Type} {l : List α} (h : l ≠ []) : l.isEmpty = false := by
  cases l with
  | nil => exact absurd rfl h
  | cons a as => rfl

theorem calculate_weighted_eq_pos (aw : List (String × ℚ)) (responses : List AgentResponse)
    (st : WStep) (hne : responses ≠ [])
    (hloop : weightedLoop aw responses.length responses ⟨0, Scores.zero, 0⟩ = .ok st)
    (htw : 0 < st.total_weight) :
    calculate_weighted_recommendation aw responses = .ok
      { recommendation := argmaxScores (st.weighted_scores.divAll st.total_weight),
        confidence := st.weighted_confidence / st.total_weight,
        weighted_scores := some (st.weighted_scores.divAll st.total_weight),
        consensus_level := ((most_common1 (responses.map AgentResponse.recommendation)).2 : ℚ)
          / (responses.length : ℚ),
        method := "weighted",
        total_agents := some responses.length,
        breakdown := some ((responses.map AgentResponse.recommendation).count "BUY",
          (responses.map AgentResponse.recommendation).count "SELL",
          (responses.map AgentResponse.recommendation).count "SHORT",
          (responses.map AgentResponse.recommendation).count "HOLD") } := by
  simp [calculate_weighted_recommendation, isEmpty_false_of_ne hne, hloop, htw]

theorem calculate_weighted_eq_nonpos (aw : List (String × ℚ)) (responses : List AgentResponse)
    (st : WStep) (hne : responses ≠ [])
    (hloop : weightedLoop aw responses.length responses ⟨0, Scores.zero, 0⟩ = .ok st)
    (htw : ¬ 0 < st.total_weight) :
    calculate_weighted_recommendation aw responses = .ok
      { recommendation := argmaxScores st.weighted_scores,
        confidence := st.weighted_confidence,
        weighted_scores := some st.weighted_scores,
        consensus_level := ((most_common1 (responses.map AgentResponse.recommendation)).2 : ℚ)
          / (responses.length : ℚ),
        method := "weighted",
        total_agents := some responses.length,
        breakdown := some ((responses.map AgentResponse.recommendation).count "BUY",
          (responses.map AgentResponse.recommendation).count "SELL",
          (responses.map AgentResponse.recommendation).count "SHORT",
          (responses.map AgentResponse.recommendation).count "HOLD") } := by
  simp [calculate_weighted_recommendation, isEmpty_false_of_ne hne, hloop, htw]

theorem calculate_majority_eq (responses : List AgentResponse) (hne : responses ≠ []) :
    calculate_majority_vote responses = .ok
      { recommendation := (most_common1 (responses.map AgentResponse.recommendation)).1,
        confidence := ((responses.filter fun r => r.recommendation
              = (most_common1 (responses.map AgentResponse.recommendation)).1).map
              AgentResponse.confidence).sum
          / ((responses.filter fun r => r.recommendation
              = (most_common1 (responses.map AgentResponse.recommendation)).1).length : ℚ),
        consensus_level := ((most_common1 (responses.map AgentResponse.recommendation)).2 : ℚ)
          / (responses.length : ℚ),
        method := "majority_vote",
        total_agents := some responses.length,
        winning_votes := some (most_common1 (responses.map AgentResponse.recommendation)).2 } := by
  simp [calculate_majority_vote, isEmpty_false_of_ne hne]

theorem calculate_confidence_eq_zero (responses : List AgentResponse) (s : Scores)
    (hne : responses ≠ [])
    (h0 : (responses.map AgentResponse.confidence).sum = 0)
    (hloop : confLoop (fun _ => 1 / (responses.length : ℚ)) responses Scores.zero = .ok s) :
    calculate_confidence_weighted responses = .ok
      { recommendation := argmaxScores s,
        confidence := 0,
        scores := some s,
        consensus_level := ((most_common1 (responses.map AgentResponse.recommendation)).2 : ℚ)
          / (responses.length : ℚ),
        method := "confidence_weighted",
        total_agents := some responses.length } := by
  have hloop' := hloop
  simp only [one_div] at hloop'
  simp [calculate_confidence_weighted, isEmpty_false_of_ne hne, h0, hloop, hloop']

theorem calculate_confidence_eq_ne (responses : List AgentResponse) (s : Scores)
    (hne : responses ≠ [])
    (hT : (responses.map AgentResponse.confidence).sum ≠ 0)
    (hloop : confLoop
        (fun r => r.confidence / (responses.map AgentResponse.confidence).sum)
        responses Scores.zero = .ok s) :
    calculate_confidence_weighted responses = .ok
      { recommendation := argmaxScores s,
        confidence := (responses.map AgentResponse.confidence).sum / (responses.length : ℚ),
        scores := some s,
        consensus_level := ((most_common1 (responses.map AgentResponse.recommendation)).2 : ℚ)
          / (responses.length : ℚ),
        method := "confidence_weighted",
        total_agents := some responses.length } := by
  simp [calculate_confidence_weighted, isEmpty_false_of_ne hne, hT, hloop]

/-- C6: for a base recommendation R in {BUY, SELL, SHORT}, the synthesized
signal is STRONG_R iff confidence ≥ 0.8 (default high threshold) and
consensus_level ≥ 0.75, and is R itself otherwise; the boundary
confidence = 0.8 with consensus_level = 0.75 escalates while
confidence = 0.79 never does; HOLD never escalates. -/
theorem c6_signal_strength :
    ∀ R ∈ ["BUY", "SELL", "SHORT"], ∀ confidence consensus_level : ℚ,
      (determine_signal_strength default_high_threshold R confidence consensus_level
          = "STRONG_" ++ R ↔ (8/10 ≤ confidence ∧ 3/4 ≤ consensus_level)) ∧
      (¬ (8/10 ≤ confidence ∧ 3/4 ≤ consensus_level) →
        determine_signal_strength default_high_threshold R confidence consensus_level = R) ∧
      determine_signal_strength default_high_threshold "HOLD" confidence consensus_level
        = "HOLD" ∧
      determine_signal_strength default_high_threshold R (8/10) (3/4) = "STRONG_" ++ R ∧
      (∀ cl : ℚ, determine_signal_strength default_high_threshold R (79/100) cl = R) := by
  intro R hR confidence consensus_level
  have hnum : ¬ ((8 : ℚ)/10 ≤ 79/100) := by norm_num
  rcases (by simpa using hR : R = "BUY" ∨ R = "SELL" ∨ R = "SHORT") with rfl | rfl | rfl
  · have hS : ("STRONG_" ++ "BUY" : String) = "STRONG_BUY" := rfl
    refine ⟨?_, fun hcond => ?_, ?_, ?_, fun cl => ?_⟩
    · by_cases hcond : (8 : ℚ)/10 ≤ confidence ∧ (3 : ℚ)/4 ≤ consensus_level <;>
        simp [determine_signal_strength, default_high_threshold, hcond, hS]
    · simp [determine_signal_strength, default_high_threshold, hcond]
    · simp [determine_signal_strength, default_high_threshold]
    · simp [determine_signal_strength, default_high_threshold, hS]
    · simp [determine_signal_strength, default_high_threshold, hnum]
  · have hS : ("STRONG_" ++ "SELL" : String) = "STRONG_SELL" := rfl
    refine ⟨?_, fun hcond => ?_, ?_, ?_, fun cl => ?_⟩
    · by_cases hcond : (8 : ℚ)/10 ≤ confidence ∧ (3 : ℚ)/4 ≤ consensus_level <;>
        simp [determine_signal_strength, default_high_threshold, hcond, hS]
    · simp [determine_signal_strength, default_high_threshold, hcond]
    · simp [determine_signal_strength, default_high_threshold]
    · simp [determine_signal_strength, default_high_threshold, hS]
    · simp [determine_signal_strength, default_high_threshold, hnum]
  · have hS : ("STRONG_" ++ "SHORT" : String) = "STRONG_SHORT" := rfl
    refine ⟨?_, fun hcond => ?_, ?_, ?_, fun cl => ?_⟩
    · by_cases hcond : (8 : ℚ)/10 ≤ confidence ∧ (3 : ℚ)/4 ≤ consensus_level <;>
        simp [determine_signal_strength, default_high_threshold, hcond, hS]
    · simp [determine_signal_strength, default_high_threshold, hcond]
    · simp [determine_signal_strength, default_high_threshold]
    · simp [determine_signal_strength, default_high_threshold, hS]
    · simp [determine_signal_strength, default_high_threshold, hnum]


/-- C8: on an empty response list, `build_consensus` returns recommendation
HOLD with confidence 0 and consensus_level 0 for every method name
(weighted, majority, confidence, or unrecognized), and never raises. -/
theorem c8_empty_input_defaults (agent_weights : List (String × ℚ)) (method : String) :
    ∃ res, build_consensus agent_weights [] method = .ok res ∧
      res.recommendation = "HOLD" ∧ res.confidence = 0 ∧ res.consensus_level = 0 := by
  unfold build_consensus calculate_weighted_recommendation calculate_majority_vote
    calculate_confidence_weighted
  split_ifs <;> first | exact ⟨_, rfl, rfl, rfl, rfl⟩ | simp_all

/-- C9 (amended): with a known non-zero current price p the price target and
stop loss follow the per-recommendation formulas of the spec; with no price
(or the falsy price 0, see the counterexample) both are unset. -/
theorem c9_price_targets (confidence p : ℚ) (hp : p ≠ 0) :
    estimate_price_targets "BUY" confidence (some p)
      = (some (p * (1 + 5/100 + 10/100 * confidence)), some (p * (95/100))) ∧
    estimate_price_targets "SELL" confidence (some p)
      = (some (p * (1 - 5/100 - 10/100 * confidence)), some (p * (105/100))) ∧
    estimate_price_targets "SHORT" confidence (some p)
      = (some (p * (1 - 10/100 - 15/100 * confidence)),
         some (p * (1 + 5/100 + 3/100 * (1 - confidence)))) ∧
    estimate_price_targets "HOLD" confidence (some p) = (some p, some (p * (90/100))) ∧
    ∀ rec : String, estimate_price_targets rec confidence none = (none, none) := by
  refine ⟨?_, ?_, ?_, ?_, fun rec => rfl⟩ <;>
    simp [estimate_price_targets, hp, Prod.ext_iff] <;> ring_nf <;> simp

/-- C9 counterexample: a consensus report with the known current price 0 — the
claim's HOLD formula demands price_target = price (i.e. `some 0`), but the code
treats a zero price as falsy and leaves both targets unset. -/
theorem c9_counterexample :
    estimate_price_targets "HOLD" (1/2) (some 0) = (none, none) ∧
    (none : Option ℚ) ≠ some 0 := by
  constructor
  · rfl
  · simp

/-- C10: on any non-empty response list containing a recommendation outside
{BUY, SELL, SHORT, HOLD}, the weighted and confidence methods raise KeyError
while the majority method still returns a result. -/
theorem c10_key_error_totality (agent_weights : List (String × ℚ))
    (responses : List AgentResponse) (hne : responses ≠ [])
    (hbad : ∃ r ∈ responses, r.recommendation ∉ the4) :
    calculate_weighted_recommendation agent_weights responses = .error .keyError ∧
    calculate_confidence_weighted responses = .error .keyError ∧
    ∃ res, calculate_majority_vote responses = .ok res := by
  refine ⟨?_, ?_, _, calculate_majority_eq responses hne⟩
  · simp [calculate_weighted_recommendation, isEmpty_false_of_ne hne,
      weightedLoop_err agent_weights responses.length responses _ hbad]
  · simp only [calculate_confidence_weighted, isEmpty_false_of_ne hne, Bool.false_eq_true,
      if_false]
    split_ifs <;> simp [confLoop_err _ responses Scores.zero hbad]

/-- C7: the majority method returns the most frequent recommendation (ties
broken by first-encountered order) with confidence the mean over the winning
side only and consensus_level its vote share; on the scenario votes
BUY,BUY,BUY,SELL with confidences 0.9,0.8,0.7,0.6 it returns BUY,
consensus_level 0.75, confidence 0.8. -/
theorem c7_majority_vote :
    (∀ responses : List AgentResponse, responses ≠ [] →
      ∃ res, calculate_majority_vote responses = .ok res ∧
        res.recommendation ∈ responses.map AgentResponse.recommendation ∧
        (∀ x ∈ responses.map AgentResponse.recommendation,
          (responses.map AgentResponse.recommendation).count x
            ≤ (responses.map AgentResponse.recommendation).count res.recommendation) ∧
        (responses.map AgentResponse.recommendation).find?
            (fun x => decide
              ((responses.map AgentResponse.recommendation).count res.recommendation
                ≤ (responses.map AgentResponse.recommendation).count x))
          = some res.recommendation ∧
        res.confidence =
          ((responses.filter fun r => r.recommendation = res.recommendation).map
              AgentResponse.confidence).sum
            / ((responses.filter fun r => r.recommendation = res.recommendation).length : ℚ) ∧
        res.consensus_level =
          ((responses.map AgentResponse.recommendation).count res.recommendation : ℚ)
            / (responses.length : ℚ)) ∧
    calculate_majority_vote scenario_majority = .ok
      { recommendation := "BUY", confidence := 8/10, consensus_level := 3/4,
        method := "majority_vote", total_agents := some 4, winning_votes := some 3 } := by
  constructor
  · intro responses hne
    have hrne : responses.map AgentResponse.recommendation ≠ [] := by simpa using hne
    obtain ⟨hmem, hcnt⟩ := most_common1_key_count _ hrne
    refine ⟨_, calculate_majority_eq responses hne, ?_, ?_, ?_, rfl, ?_⟩
    · exact hmem
    · intro x hx
      dsimp only
      rw [← hcnt]
      exact most_common1_le _ hrne x hx
    · dsimp only
      simp only [← hcnt]
      exact most_common1_first _ hrne
    · dsimp only
      rw [← hcnt]
  · have h1 : most_common1 (scenario_majority.map AgentResponse.recommendation)
        = ("BUY", 3) := rfl
    rw [calculate_majority_eq scenario_majority (by simp [scenario_majority])]
    have hSB : ("SELL" = "BUY") = False := by simp
    simp only [h1, PyConsensus.mk.injEq, Except.ok.injEq]
    norm_num [scenario_majority, List.filter_cons, List.filter_nil, hSB]

/-- C7 witness: the general majority-method theorem applied to the concrete
four-analyst scenario. -/
theorem c7_witness :
    ∃ res, calculate_majority_vote scenario_majority = .ok res ∧
      res.recommendation ∈ scenario_majority.map AgentResponse.recommendation ∧
      (∀ x ∈ scenario_majority.map AgentResponse.recommendation,
        (scenario_majority.map AgentResponse.recommendation).count x
          ≤ (scenario_majority.map AgentResponse.recommendation).count res.recommendation) ∧
      (scenario_majority.map AgentResponse.recommendation).find?
          (fun x => decide
            ((scenario_majority.map AgentResponse.recommendation).count res.recommendation
              ≤ (scenario_majority.map AgentResponse.recommendation).count x))
        = some res.recommendation ∧
      res.confidence =
        ((scenario_majority.filter fun r => r.recommendation = res.recommendation).map
            AgentResponse.confidence).sum
          / ((scenario_majority.filter fun r =>
              r.recommendation = res.recommendation).length : ℚ) ∧
      res.consensus_level =
        ((scenario_majority.map AgentResponse.recommendation).count res.recommendation : ℚ)
          / (scenario_majority.length : ℚ) :=
  c7_majority_vote.1 scenario_majority (by decide)

/-- C6 witness: the escalation rule evaluated at the boundary inputs. -/
theorem c6_witness :
    determine_signal_strength default_high_threshold "BUY" (8/10) (3/4) = "STRONG_BUY" ∧
    determine_signal_strength default_high_threshold "BUY" (79/100) (3/4) = "BUY" ∧
    determine_signal_strength default_high_threshold "HOLD" (8/10) (3/4) = "HOLD" := by
  have h := c6_signal_strength "BUY" (by simp) (8/10) (3/4)
  exact ⟨h.2.2.2.1.trans rfl, h.2.2.2.2 (3/4), h.2.2.1⟩

/-- C9 witness: a BUY consensus with confidence 0.7 at price 100 yields target
112 and stop loss 95. -/
theorem c9_witness :
    estimate_price_targets "BUY" (7/10) (some 100) = (some 112, some 95) := by
  have h := (c9_price_targets (7/10) 100 (by norm_num)).1
  rw [h]
  norm_num

/-- C10 witness: a single response with recommendation FOO makes the weighted
and confidence methods raise KeyError. -/
theorem c10_witness :
    calculate_weighted_recommendation [] [⟨"agent_a", "FOO", 1/2⟩] = .error .keyError ∧
    calculate_confidence_weighted [⟨"agent_a", "FOO", 1/2⟩] = .error .keyError :=
  ⟨(c10_key_error_totality [] [⟨"agent_a", "FOO", 1/2⟩] (by decide) (by decide)).1,
   (c10_key_error_totality [] [⟨"agent_a", "FOO", 1/2⟩] (by decide) (by decide)).2.1⟩

theorem divAll_total (s : Scores) (d : ℚ) : (s.divAll d).total = s.total / d := by
  simp only [Scores.divAll, Scores.total]
  ring

/-- C2 (amended): for non-empty responses with valid recommendation labels,
non-negative confidences and non-negative configured weights, the
weighted_scores map has non-negative values whose sum over the four classes
equals the returned (weight-normalized average) confidence — not 1. -/
theorem c2_weighted_scores_nonneg_sum (agent_weights : List (String × ℚ))
    (responses : List AgentResponse) (hne : responses ≠ [])
    (hv : ∀ r ∈ responses, r.recommendation ∈ the4)
    (hc : ∀ r ∈ responses, 0 ≤ r.confidence)
    (hw : ∀ p ∈ agent_weights, 0 ≤ p.2) :
    ∃ res ws, calculate_weighted_recommendation agent_weights responses = .ok res ∧
      res.weighted_scores = some ws ∧
      0 ≤ ws.buy ∧ 0 ≤ ws.sell ∧ 0 ≤ ws.short ∧ 0 ≤ ws.hold ∧
      ws.total = res.confidence := by
  obtain ⟨st, hloop⟩ := weightedLoop_ok agent_weights responses.length responses
    ⟨0, Scores.zero, 0⟩ hv
  obtain ⟨h1, h2, h3, h4, h5, h6⟩ := weightedLoop_inv agent_weights responses.length responses
    _ st hw hc hloop (by simp [WInv, Scores.zero, Scores.total])
  by_cases htw : 0 < st.total_weight
  · refine ⟨_, _, calculate_weighted_eq_pos agent_weights responses st hne hloop htw,
      rfl, ?_, ?_, ?_, ?_, ?_⟩
    · exact div_nonneg h1 htw.le
    · exact div_nonneg h2 htw.le
    · exact div_nonneg h3 htw.le
    · exact div_nonneg h4 htw.le
    · dsimp only
      rw [divAll_total, h5]
  · exact ⟨_, _, calculate_weighted_eq_nonpos agent_weights responses st hne hloop htw,
      rfl, h1, h2, h3, h4, h5⟩

/-- C2 counterexample: a single BUY response with confidence 0.5 and uniform
weights yields weighted_scores summing to 0.5, refuting the claim that the
values sum to 1 over the four recommendation classes. -/
theorem c2_counterexample :
    Except.map (fun r => Option.map Scores.total r.weighted_scores)
        (calculate_weighted_recommendation [] [⟨"agent_a", "BUY", 1/2⟩])
      = .ok (some (1/2)) ∧ ((1 : ℚ)/2) ≠ 1 := by
  constructor
  · norm_num [calculate_weighted_recommendation, weightedLoop, dictGet, Scores.addAt,
      Scores.zero, Scores.divAll, Scores.total, most_common1, pymax, Except.map]
  · norm_num

/-- C2 witness: the amended theorem applied to one BUY response with
confidence 0.5 and no configured weights. -/
theorem c2_witness :
    ∃ res ws, calculate_weighted_recommendation [] [⟨"agent_a", "BUY", 1/2⟩] = .ok res ∧
      res.weighted_scores = some ws ∧
      0 ≤ ws.buy ∧ 0 ≤ ws.sell ∧ 0 ≤ ws.short ∧ 0 ≤ ws.hold ∧
      ws.total = res.confidence :=
  c2_weighted_scores_nonneg_sum [] [⟨"agent_a", "BUY", 1/2⟩] (by simp) (by decide)
    (by intro r hr; rcases List.mem_singleton.mp hr with rfl; norm_num) (by simp)

/-- C4: for non-empty responses with valid recommendation labels, all three
consensus methods succeed and compute the same consensus_level, equal to the
multiplicity of the most frequent recommendation over the total, which lies in
[0,1] and equals max(breakdown.values())/total. -/
theorem c4_consensus_level_uniform (agent_weights : List (String × ℚ))
    (responses : List AgentResponse)
    (hne : responses ≠ []) (hv : ∀ r ∈ responses, r.recommendation ∈ the4) :
    ∃ rw rm rc : PyConsensus,
      calculate_weighted_recommendation agent_weights responses = .ok rw ∧
      calculate_majority_vote responses = .ok rm ∧
      calculate_confidence_weighted responses = .ok rc ∧
      rw.consensus_level = rm.consensus_level ∧ rc.consensus_level = rm.consensus_level ∧
      (∃ w ∈ responses.map AgentResponse.recommendation,
        rm.consensus_level = ((responses.map AgentResponse.recommendation).count w : ℚ)
            / (responses.length : ℚ) ∧
        ∀ x ∈ responses.map AgentResponse.recommendation,
          (responses.map AgentResponse.recommendation).count x
            ≤ (responses.map AgentResponse.recommendation).count w) ∧
      0 ≤ rm.consensus_level ∧ rm.consensus_level ≤ 1 ∧
      (∃ b : Nat × Nat × Nat × Nat, rw.breakdown = some b ∧
        rm.consensus_level
          = ((max (max b.1 b.2.1) (max b.2.2.1 b.2.2.2) : Nat) : ℚ)
            / (responses.length : ℚ)) := by
  have hrne : responses.map AgentResponse.recommendation ≠ [] := by simpa using hne
  have hlen : 0 < responses.length := List.length_pos.mpr hne
  have hlenQ : (0 : ℚ) < (responses.length : ℚ) := by exact_mod_cast hlen
  obtain ⟨hmem, hcnt⟩ := most_common1_key_count _ hrne
  have hle := most_common1_le _ hrne
  have hwres : ∃ rw : PyConsensus,
      calculate_weighted_recommendation agent_weights responses = .ok rw ∧
      rw.consensus_level
        = ((most_common1 (responses.map AgentResponse.recommendation)).2 : ℚ)
          / (responses.length : ℚ) ∧
      rw.breakdown = some ((responses.map AgentResponse.recommendation).count "BUY",
        (responses.map AgentResponse.recommendation).count "SELL",
        (responses.map AgentResponse.recommendation).count "SHORT",
        (responses.map AgentResponse.recommendation).count "HOLD") := by
    obtain ⟨st, hloop⟩ := weightedLoop_ok agent_weights responses.length responses
      ⟨0, Scores.zero, 0⟩ hv
    by_cases htw : 0 < st.total_weight
    · exact ⟨_, calculate_weighted_eq_pos agent_weights responses st hne hloop htw, rfl, rfl⟩
    · exact ⟨_, calculate_weighted_eq_nonpos agent_weights responses st hne hloop htw, rfl, rfl⟩
  have hcres : ∃ rc : PyConsensus,
      calculate_confidence_weighted responses = .ok rc ∧
      rc.consensus_level
        = ((most_common1 (responses.map AgentResponse.recommendation)).2 : ℚ)
          / (responses.length : ℚ) := by
    by_cases h0 : (responses.map AgentResponse.confidence).sum = 0
    · obtain ⟨s, hl⟩ := confLoop_ok (fun _ => 1 / (responses.length : ℚ)) responses
        Scores.zero hv
      exact ⟨_, calculate_confidence_eq_zero responses s hne h0 hl, rfl⟩
    · obtain ⟨s, hl⟩ := confLoop_ok
        (fun r => r.confidence / (responses.map AgentResponse.confidence).sum) responses
        Scores.zero hv
      exact ⟨_, calculate_confidence_eq_ne responses s hne h0 hl, rfl⟩
  obtain ⟨rw, hrw, hrwcl, hrwbd⟩ := hwres
  obtain ⟨rc, hrc, hrccl⟩ := hcres
  have hwthe4 : (most_common1 (responses.map AgentResponse.recommendation)).1 ∈ the4 := by
    rcases List.mem_map.1 hmem with ⟨r, hr, hrec⟩
    rw [← hrec]
    exact hv r hr
  have hclassle : ∀ k : String,
      (responses.map AgentResponse.recommendation).count k
        ≤ (most_common1 (responses.map AgentResponse.recommendation)).2 := by
    intro k
    by_cases hk : k ∈ responses.map AgentResponse.recommendation
    · exact hle k hk
    · rw [List.count_eq_zero.mpr hk]
      exact Nat.zero_le _
  have hmax : (most_common1 (responses.map AgentResponse.recommendation)).2
      = max (max ((responses.map AgentResponse.recommendation).count "BUY")
          ((responses.map AgentResponse.recommendation).count "SELL"))
        (max ((responses.map AgentResponse.recommendation).count "SHORT")
          ((responses.map AgentResponse.recommendation).count "HOLD")) := by
    apply Nat.le_antisymm
    · rw [hcnt]
      rcases (by simpa [the4] using hwthe4 :
          (most_common1 (responses.map AgentResponse.recommendation)).1 = "BUY" ∨
          (most_common1 (responses.map AgentResponse.recommendation)).1 = "SELL" ∨
          (most_common1 (responses.map AgentResponse.recommendation)).1 = "SHORT" ∨
          (most_common1 (responses.map AgentResponse.recommendation)).1 = "HOLD")
        with h | h | h | h <;> rw [h]
      · exact le_trans (le_max_left _ _) (le_max_left _ _)
      · exact le_trans (le_max_right _ _) (le_max_left _ _)
      · exact le_trans (le_max_left _ _) (le_max_right _ _)
      · exact le_trans (le_max_right _ _) (le_max_right _ _)
    · exact Nat.max_le.mpr ⟨Nat.max_le.mpr ⟨hclassle _, hclassle _⟩,
        Nat.max_le.mpr ⟨hclassle _, hclassle _⟩⟩
  have hcount_len : (most_common1 (responses.map AgentResponse.recommendation)).2
      ≤ responses.length := by
    rw [hcnt]
    calc (responses.map AgentResponse.recommendation).count
          (most_common1 (responses.map AgentResponse.recommendation)).1
        ≤ (responses.map AgentResponse.recommendation).length := List.count_le_length _ _
      _ = responses.length := List.length_map _ _
  refine ⟨rw, _, rc, hrw, calculate_majority_eq responses hne, hrc, ?_, ?_, ?_, ?_, ?_, ?_⟩
  · rw [hrwcl]
  · rw [hrccl]
  · refine ⟨(most_common1 (responses.map AgentResponse.recommendation)).1, hmem, ?_, ?_⟩
    · dsimp only
      rw [← hcnt]
    · intro x hx
      rw [← hcnt]
      exact hle x hx
  · dsimp only
    positivity
  · dsimp only
    rw [div_le_one hlenQ]
    exact_mod_cast hcount_len
  · refine ⟨_, hrwbd, ?_⟩
    dsimp only
    rw [← hmax]

/-- C4 witness: the consensus-level agreement applied to the four-analyst
majority scenario with no configured weights. -/
theorem c4_witness :
    ∃ rw rm rc : PyConsensus,
      calculate_weighted_recommendation [] scenario_majority = .ok rw ∧
      calculate_majority_vote scenario_majority = .ok rm ∧
      calculate_confidence_weighted scenario_majority = .ok rc ∧
      rw.consensus_level = rm.consensus_level ∧ rc.consensus_level = rm.consensus_level ∧
      (∃ w ∈ scenario_majority.map AgentResponse.recommendation,
        rm.consensus_level = ((scenario_majority.map AgentResponse.recommendation).count w : ℚ)
            / (scenario_majority.length : ℚ) ∧
        ∀ x ∈ scenario_majority.map AgentResponse.recommendation,
          (scenario_majority.map AgentResponse.recommendation).count x
            ≤ (scenario_majority.map AgentResponse.recommendation).count w) ∧
      0 ≤ rm.consensus_level ∧ rm.consensus_level ≤ 1 ∧
      (∃ b : Nat × Nat × Nat × Nat, rw.breakdown = some b ∧
        rm.consensus_level
          = ((max (max b.1 b.2.1) (max b.2.2.1 b.2.2.2) : Nat) : ℚ)
            / (scenario_majority.length : ℚ)) :=
  c4_consensus_level_uniform [] scenario_majority (by simp [scenario_majority]) (by decide)

/-- C5 (amended): with uniform weights (no configured agent weights), a common
positive confidence, and a strictly unique modal recommendation, the weighted,
majority and confidence methods all select that modal recommendation.  (With
ties — or a zero common confidence — the methods can disagree, because the
weighted and confidence arg-max prefers the fixed key order BUY, SELL, SHORT,
HOLD while the majority tie-break prefers first-encountered order; see the
counterexample.) -/
theorem c5_degenerate_majority (responses : List AgentResponse) (c : ℚ) (m : String)
    (hne : responses ≠ [])
    (hv : ∀ r ∈ responses, r.recommendation ∈ the4)
    (hc : ∀ r ∈ responses, r.confidence = c) (hcpos : 0 < c)
    (hm : m ∈ responses.map AgentResponse.recommendation)
    (hstrict : ∀ k ∈ the4, k ≠ m →
      (responses.map AgentResponse.recommendation).count k
        < (responses.map AgentResponse.recommendation).count m) :
    ∃ rw rm rc : PyConsensus,
      calculate_weighted_recommendation [] responses = .ok rw ∧
      calculate_majority_vote responses = .ok rm ∧
      calculate_confidence_weighted responses = .ok rc ∧
      rw.recommendation = m ∧ rm.recommendation = m ∧ rc.recommendation = m := by
  have hlen : 0 < responses.length := List.length_pos.mpr hne
  have hlenQ : (0 : ℚ) < (responses.length : ℚ) := by exact_mod_cast hlen
  have hnne : ((responses.length : ℚ)) ≠ 0 := ne_of_gt hlenQ
  have hm4 : m ∈ the4 := by
    rcases List.mem_map.1 hm with ⟨r, hr, hrec⟩
    rw [← hrec]
    exact hv r hr
  have hstrict' : ∀ k, k ≠ m →
      (responses.map AgentResponse.recommendation).count k
        < (responses.map AgentResponse.recommendation).count m := by
    intro k hkm
    by_cases hk4 : k ∈ the4
    · exact hstrict k hk4 hkm
    · have hk : k ∉ responses.map AgentResponse.recommendation := by
        intro hmem
        rcases List.mem_map.1 hmem with ⟨r, hr, hrec⟩
        exact hk4 (hrec ▸ hv r hr)
      rw [List.count_eq_zero.mpr hk]
      exact List.count_pos_iff_mem.mpr hm
  have hloop := weightedLoop_uniform responses.length c responses ⟨0, Scores.zero, 0⟩ hv hc
  have htwval : (⟨0, Scores.zero, 0⟩ : WStep).total_weight
      + (responses.length : ℚ) * (1 / (responses.length : ℚ)) = 1 := by
    show (0 : ℚ) + (responses.length : ℚ) * (1 / (responses.length : ℚ)) = 1
    rw [zero_add, mul_one_div, div_self hnne]
  have hres := calculate_weighted_eq_pos [] responses _ hne hloop
    (by rw [htwval]; exact one_pos)
  simp only [Scores.divAll, Scores.zero, htwval, div_one, zero_add] at hres
  have hwpos : 0 < 1 / (responses.length : ℚ) * c := mul_pos (one_div_pos.mpr hlenQ) hcpos
  have hsum := sum_conf_const responses c hc
  have hT : (responses.map AgentResponse.confidence).sum ≠ 0 := by
    rw [hsum]
    exact mul_ne_zero hnne (ne_of_gt hcpos)
  have hinc : ∀ r ∈ responses,
      r.confidence / (responses.map AgentResponse.confidence).sum
        = 1 / (responses.length : ℚ) := by
    intro r hr
    rw [hc r hr, hsum]
    field_simp
    ring
  have hloop2 := confLoop_const
    (fun r => r.confidence / (responses.map AgentResponse.confidence).sum)
    (1 / (responses.length : ℚ)) responses Scores.zero hv hinc
  have hres2 := calculate_confidence_eq_ne responses _ hne hT hloop2
  simp only [Scores.zero, zero_add] at hres2
  refine ⟨_, _, _, hres, calculate_majority_eq responses hne, hres2, ?_, ?_, ?_⟩
  · exact argmaxScores_strict _ (responses.map AgentResponse.recommendation)
      (1 / (responses.length : ℚ) * c) m rfl rfl rfl rfl hwpos hm4 hstrict
  · exact most_common1_strict _ m hm hstrict'
  · exact argmaxScores_strict _ (responses.map AgentResponse.recommendation)
      (1 / (responses.length : ℚ)) m rfl rfl rfl rfl (one_div_pos.mpr hlenQ) hm4 hstrict

/-- C5 counterexample: on the tie SELL, BUY with equal confidences 0.5 and no
configured weights, the weighted method selects BUY (fixed key order of the
score dictionary) while the majority method selects SELL (first-encountered),
so the three methods do not all agree. -/
theorem c5_counterexample :
    Except.map PyConsensus.recommendation
        (calculate_weighted_recommendation []
          [⟨"agent_a", "SELL", 1/2⟩, ⟨"agent_b", "BUY", 1/2⟩]) = .ok "BUY" ∧
    Except.map PyConsensus.recommendation
        (calculate_majority_vote
          [⟨"agent_a", "SELL", 1/2⟩, ⟨"agent_b", "BUY", 1/2⟩]) = .ok "SELL" ∧
    "BUY" ≠ "SELL" := by
  have hSB : ("SELL" = "BUY") = False := by simp
  have hBS : ("BUY" = "SELL") = False := by simp
  refine ⟨?_, ?_, by simp⟩
  · norm_num [calculate_weighted_recommendation, weightedLoop, dictGet, Scores.addAt,
      Scores.zero, Scores.divAll, argmaxScores, pymax, most_common1, Except.map, hSB, hBS]
  · norm_num [calculate_majority_vote, most_common1, pymax, Except.map, hSB, hBS]

/-- C5 witness: the amended agreement theorem applied to three analysts with
common confidence 0.5 and a strict BUY majority. -/
theorem c5_witness :
    ∃ rw rm rc : PyConsensus,
      calculate_weighted_recommendation []
        [⟨"a1", "BUY", 1/2⟩, ⟨"a2", "SELL", 1/2⟩, ⟨"a3", "BUY", 1/2⟩] = .ok rw ∧
      calculate_majority_vote
        [⟨"a1", "BUY", 1/2⟩, ⟨"a2", "SELL", 1/2⟩, ⟨"a3", "BUY", 1/2⟩] = .ok rm ∧
      calculate_confidence_weighted
        [⟨"a1", "BUY", 1/2⟩, ⟨"a2", "SELL", 1/2⟩, ⟨"a3", "BUY", 1/2⟩] = .ok rc ∧
      rw.recommendation = "BUY" ∧ rm.recommendation = "BUY" ∧ rc.recommendation = "BUY" :=
  c5_degenerate_majority [⟨"a1", "BUY", 1/2⟩, ⟨"a2", "SELL", 1/2⟩, ⟨"a3", "BUY", 1/2⟩]
    (1/2) "BUY" (by simp) (by decide)
    (by intro r hr; fin_cases hr <;> norm_num) (by norm_num) (by decide) (by decide)

theorem map_readRef_range (l : List AgentResponse) :
    (List.range l.length).map (readRef l) = l := by
  apply List.ext_getElem
  · simp
  · intro i h1 h2
    simp only [List.getElem_map, List.getElem_range, readRef]
    exact List.getD_eq_getElem l _ h2

theorem run_full_debate_no_disagreement (oracle : DebateOracle)
    (initial : List AgentResponse) (f : Nat) (hne : initial ≠ [])
    (hno : identify_disagreements initial = []) :
    run_full_debate oracle initial (f + 1) = some
      { total_rounds := 2,
        rounds := [⟨0, 0, initial, []⟩, ⟨1, 0, [], []⟩],
        final_responses := initial } := by
  have hmap : (List.range initial.length).map (readRef initial) = initial :=
    map_readRef_range initial
  have hstep : conduct_debate_round oracle initial (List.range initial.length) 1
      = (initial, ⟨1, [], [], 0⟩) := by
    simp [conduct_debate_round, hmap, hno]
  simp only [run_full_debate, isEmpty_false_of_ne hne, Bool.false_eq_true, if_false]
  simp only [debateLoop, hstep]
  simp [hmap, hno]

/-- C1 (amended): a session whose round-0 positions contain no disagreement
stops after the first debate iteration, but with `total_rounds = 2`, not 1:
the empty round-1 object (no positions, no debate entries) is still appended
to the session, and the final responses are the unchanged round-0 positions. -/
theorem c1_no_disagreement_two_rounds (oracle : DebateOracle)
    (initial : List AgentResponse) (max_rounds : Nat) (hne : initial ≠ [])
    (hmr : 1 ≤ max_rounds) (hno : identify_disagreements initial = []) :
    run_full_debate oracle initial max_rounds = some
      { total_rounds := 2,
        rounds := [⟨0, 0, initial, []⟩, ⟨1, 0, [], []⟩],
        final_responses := initial } := by
  obtain ⟨f, rfl⟩ : ∃ f, max_rounds = f + 1 := ⟨max_rounds - 1, by omega⟩
  exact run_full_debate_no_disagreement oracle initial f hne hno

/-- C1 counterexample: a one-analyst session with agreement at round 0 (one
HOLD position, zero confidence spread) and the default round budget 3 ends
with `total_rounds = 2` — an empty debate round is created and appended — so
the claimed `total_rounds = 1` is false. -/
theorem c1_counterexample :
    run_full_debate (fun _ _ => none) [⟨"agent_a", "HOLD", 1/2⟩] 3 = some
      { total_rounds := 2,
        rounds := [⟨0, 0, [⟨"agent_a", "HOLD", 1/2⟩], []⟩, ⟨1, 0, [], []⟩],
        final_responses := [⟨"agent_a", "HOLD", 1/2⟩] } ∧ (2 : Nat) ≠ 1 := by
  constructor
  · exact run_full_debate_no_disagreement (fun _ _ => none) [⟨"agent_a", "HOLD", 1/2⟩] 2
      (by simp)
      (by simp [identify_disagreements, pyListMax, pyListMin]
          norm_num)
  · decide

/-- C1 witness: the amended convergence theorem applied to the concrete
one-analyst session with the default round budget. -/
theorem c1_witness :
    run_full_debate (fun _ _ => none) [⟨"agent_b", "HOLD", 3/5⟩] 3 = some
      { total_rounds := 2,
        rounds := [⟨0, 0, [⟨"agent_b", "HOLD", 3/5⟩], []⟩, ⟨1, 0, [], []⟩],
        final_responses := [⟨"agent_b", "HOLD", 3/5⟩] } :=
  c1_no_disagreement_two_rounds (fun _ _ => none) [⟨"agent_b", "HOLD", 3/5⟩] 3
    (by simp) (by norm_num)
    (by simp [identify_disagreements, pyListMax, pyListMin]
        norm_num)

/-- C3: an AgentPosition recorded in round 0 is not immutable: on the
two-analyst BUY/SELL conflict session where both analysts switch to HOLD with
confidence 0.5 in round 1, the positions recorded for round 0 in the final
session read HOLD — `conduct_debate_round` mutates the aliased round-0
objects in place — although the initial round-0 recommendations were BUY and
SELL. -/
theorem c3_round0_positions_mutated :
    Option.map
        (fun d => d.rounds.map fun rd => rd.agent_responses.map AgentResponse.recommendation)
        (run_full_debate aliasOracle aliasInitial 3)
      = some [["HOLD", "HOLD"], ["HOLD", "HOLD"]] ∧
    aliasInitial.map AgentResponse.recommendation = ["BUY", "SELL"] := by
  have hmap0 : [0, 1].map (readRef aliasInitial) = aliasInitial := rfl
  have hid1 : identify_disagreements aliasInitial
      = [⟨.recommendation_conflict, ["agent_a"], ["agent_b"], []⟩] := by
    simp [identify_disagreements, aliasInitial, pyListMax, pyListMin]
    norm_num
  have hcdr : conduct_debate_round aliasOracle aliasInitial [0, 1] 1
      = ([⟨"agent_a", "HOLD", 1/2⟩, ⟨"agent_b", "HOLD", 1/2⟩],
         ⟨1, [0, 1], [⟨0, "BUY", 9/10, "HOLD", 1/2, true⟩,
                      ⟨1, "SELL", 9/10, "HOLD", 1/2, true⟩], 0⟩) := by
    simp only [conduct_debate_round, hmap0, hid1]
    rfl
  have hσmap : [0, 1].map (readRef [⟨"agent_a", "HOLD", (1 : ℚ)/2⟩, ⟨"agent_b", "HOLD", 1/2⟩])
      = [⟨"agent_a", "HOLD", 1/2⟩, ⟨"agent_b", "HOLD", 1/2⟩] := rfl
  have hid2 : identify_disagreements
      [(⟨"agent_a", "HOLD", (1 : ℚ)/2⟩ : AgentResponse), ⟨"agent_b", "HOLD", 1/2⟩] = [] := by
    simp [identify_disagreements, pyListMax, pyListMin]
    norm_num
  have h3 : (3 : Nat) = 2 + 1 := rfl
  have hloop : debateLoop aliasOracle 3 1 ⟨aliasInitial, [0, 1], [⟨0, [0, 1], [], 0⟩]⟩
      = ⟨[⟨"agent_a", "HOLD", 1/2⟩, ⟨"agent_b", "HOLD", 1/2⟩], [0, 1],
         [⟨0, [0, 1], [], 0⟩,
          ⟨1, [0, 1], [⟨0, "BUY", 9/10, "HOLD", 1/2, true⟩,
                       ⟨1, "SELL", 9/10, "HOLD", 1/2, true⟩],
           calculate_consensus
             [⟨"agent_a", "HOLD", 1/2⟩, ⟨"agent_b", "HOLD", 1/2⟩]⟩]⟩ := by
    rw [h3]
    simp only [debateLoop]
    rw [hcdr]
    dsimp only
    simp only [List.isEmpty_cons, Bool.false_eq_true, if_false]
    rw [hσmap, hid2]
    rw [if_pos rfl]
    rfl
  have hrange : List.range aliasInitial.length = [0, 1] := rfl
  constructor
  · simp only [run_full_debate, show aliasInitial.isEmpty = false from rfl,
      Bool.false_eq_true, if_false, hrange, hloop]
    rfl
  · rfl
